import Mathlib

/-!
Verification development for the dnp3-python translation-and-staging layer.

The Lean definitions below are a shallow embedding of the Python sources:

  - `src/dnp3_python/dnp3station/station_utils.py`
      (SOEHandler.Process visitor dispatch, parsing_gv_to_mastercmdtype,
       master_to_outstation_command_parser, SOEHandler._post_process)
  - `src/dnp3_python/master_utils.py`
      (SOEHandler._post_process, SOEHandler._update_stale_db,
       SOEHandler.gv_ts_ind_val_dict)
  - `src/dnp3_python/dnp3station/outstation_new.py`
      (MyOutStationNew outstation-application pool,
       MyOutstationCommandHandler.Select / Operate, process_point_value)

Python dicts are modelled as association lists; only the lookup semantics of
a dict matter to the properties proved here (iteration order is never
observed by the modelled code paths), and the model keeps keys unique the
way Python dicts do.  Python `float` values are carried as rationals: the
modelled code only stores and compares them, never computes with them.
Python exceptions (`raise ValueError`, re-raised exceptions in the command
handler) are modelled with `Except`: each distinct raise-site gets its own
error constructor.
-/

namespace Dnp3

/-! ## Association-list model of Python dict (lookup semantics) -/

/-- Python `d.get(k)`: the value stored for key `k`, if any. -/
def dget {α : Type} {β : Type} [DecidableEq α] (d : List (α × β)) (k : α) : Option β :=
  match d with
  | [] => none
  | p :: rest => if p.1 = k then some p.2 else dget rest k

/-- Python `d.pop(k)` / `del d[k]` (as a pure value): remove the entry for key `k`. -/
def dpop {α : Type} {β : Type} [DecidableEq α] (d : List (α × β)) (k : α) : List (α × β) :=
  match d with
  | [] => []
  | p :: rest => if p.1 = k then dpop rest k else p :: dpop rest k

/-- Python `d[k] = v` (as a pure value): bind key `k` to `v`, replacing any old binding. -/
def dset {α : Type} {β : Type} [DecidableEq α] (d : List (α × β)) (k : α) (v : β) :
    List (α × β) :=
  (k, v) :: dpop d k

/-- The value the key `k` ends up with after Python builds `dict(l)` from the
pair list `l`: the value of the last occurrence of `k` in `l`. -/
def listLast {α : Type} {β : Type} [DecidableEq α] (l : List (α × β)) (k : α) : Option β :=
  match l with
  | [] => none
  | p :: rest =>
    match listLast rest k with
    | some v => some v
    | none => if p.1 = k then some p.2 else none

/-- Python `d.update(dict-built-from l)`: fold the pairs of `l` into `d` in order. -/
def dictUpdate {α : Type} {β : Type} [DecidableEq α] (d : List (α × β))
    (l : List (α × β)) : List (α × β) :=
  l.foldl (fun acc p => dset acc p.1 p.2) d

/-- Python `dict(l)` built from a pair list `l` (last write per key wins). -/
def pyDictOfList {α : Type} {β : Type} [DecidableEq α] (l : List (α × β)) : List (α × β) :=
  dictUpdate [] l

/-- Keys of an association list are pairwise distinct (the Python-dict invariant). -/
def KeysUniq {α : Type} {β : Type} (d : List (α × β)) : Prop :=
  List.Pairwise (fun p q => p.1 ≠ q.1) d


/-! ## Values and DNP3 group-variation identifiers -/

/-- A Python runtime value as seen by the translation layer.  `DbPointVal` in
the source is `Union[float, int, bool]`; `vStr` stands for any value outside
that union (the source performs exact runtime `type(...)` checks, so the
constructors mirror Python's runtime type tags: `type(True) is bool`, never
`int`).  Floats are carried as rationals: the code only stores them. -/
inductive PVal : Type where
  | vBool (b : Bool)
  | vInt (n : Int)
  | vFloat (q : ℚ)
  | vStr (s : String)
deriving DecidableEq, Repr

/-- Python `type(val_to_set) in [float, int]` from `parsing_gv_to_mastercmdtype`:
true exactly for runtime type `float` or `int` (a Python `bool` has runtime
type `bool`, so it is excluded even though `bool` subclasses `int`). -/
def pyTypeIsFloatOrInt : PVal → Bool
  | .vInt _ => true
  | .vFloat _ => true
  | _ => false

/-- A DNP3 group/variation identifier, e.g. (30, 1) for a 32-bit analog
input.  The source uses the `opendnp3.GroupVariation` enum members
`Group30Var1` etc.; the pair of numbers is the same identifier. -/
structure GroupVariation : Type where
  group : Nat
  variation : Nat
deriving DecidableEq, Repr

/-! ## Command Translator (station_utils.py) -/

/-- `MasterCmdType`: the master-side output command union from
station_utils.py.  `controlRelayOutputBlock` carries the `rawCode`
attribute assigned by the source (`master_cmd.rawCode = 3` / `= 4`). -/
inductive MasterCmdType : Type where
  | analogOutputDouble64 (value : PVal)
  | analogOutputFloat32 (value : PVal)
  | analogOutputInt32 (value : PVal)
  | analogOutputInt16 (value : PVal)
  | controlRelayOutputBlock (rawCode : Nat)
deriving DecidableEq, Repr

/-- `OutstationCmdType` restricted to the two shapes
`master_to_outstation_command_parser` can produce: an
`opendnp3.AnalogOutputStatus(value=...)` or an
`opendnp3.BinaryOutputStatus(value=...)`. -/
inductive OutstationCmdType : Type where
  | analogOutputStatus (value : PVal)
  | binaryOutputStatus (value : Bool)
deriving DecidableEq, Repr

/-- One constructor per distinct `raise ValueError(...)` site in the
Command Translator (the spec's error taxonomy names them InvalidValueType,
UnsupportedCommandType and InvalidControlCode). -/
inductive CmdError : Type where
  | invalidValueType (group : Nat) (variation : Nat)
  | unsupportedCommandType (group : Nat)
  | invalidControlCode (rawCode : Nat)
deriving DecidableEq, Repr

/-- `parsing_gv_to_mastercmdtype(group, variation, val_to_set)` from
station_utils.py: hard-coded parsing of a (group, variation, value) triple
into a master command; `raise ValueError` sites become `Except.error`.
The source checks `type(val_to_set) in [float, int]` before dispatching on
the variation in the group-40 branch, builds the analog command and then
assigns `master_cmd.value = val_to_set` verbatim; in the group-10 branch it
checks `type(val_to_set) is bool` and assigns `rawCode = 3` for `True`
(via `val_to_set is True`) and `rawCode = 4` otherwise. -/
def parsing_gv_to_mastercmdtype (group : Nat) (variation : Nat) (val_to_set : PVal) :
    Except CmdError MasterCmdType :=
  if group = 40 then
    if ¬ pyTypeIsFloatOrInt val_to_set then
      .error (.invalidValueType group variation)
    else if variation = 1 then .ok (.analogOutputInt32 val_to_set)
    else if variation = 2 then .ok (.analogOutputInt16 val_to_set)
    else if variation = 3 then .ok (.analogOutputFloat32 val_to_set)
    else if variation = 4 then .ok (.analogOutputDouble64 val_to_set)
    else .error (.unsupportedCommandType group)
  else if group = 10 ∧ (variation = 1 ∨ variation = 2) then
    match val_to_set with
    | .vBool true => .ok (.controlRelayOutputBlock 3)
    | .vBool false => .ok (.controlRelayOutputBlock 4)
    | _ => .error (.invalidValueType group variation)
  else .error (.unsupportedCommandType group)

/-- `master_to_outstation_command_parser(master_cmd)` from station_utils.py
(the name here drops the source's noun suffix): the four analog-output
kinds copy `master_cmd.value` into an `AnalogOutputStatus`; a
`ControlRelayOutputBlock` maps `rawCode == 3` to `BinaryOutputStatus(True)`,
`rawCode == 4` to `BinaryOutputStatus(False)`, and raises `ValueError` for
any other raw code.  The source's final `else` branch (a foreign command
type) is unreachable here because `MasterCmdType` is a closed union. -/
def master_to_outstation_command_parse (master_cmd : MasterCmdType) :
    Except CmdError OutstationCmdType :=
  match master_cmd with
  | .analogOutputDouble64 v => .ok (.analogOutputStatus v)
  | .analogOutputFloat32 v => .ok (.analogOutputStatus v)
  | .analogOutputInt32 v => .ok (.analogOutputStatus v)
  | .analogOutputInt16 v => .ok (.analogOutputStatus v)
  | .controlRelayOutputBlock c =>
    if c = 3 then .ok (.binaryOutputStatus true)
    else if c = 4 then .ok (.binaryOutputStatus false)
    else .error (.invalidControlCode c)

/-! ## Value Visitor Dispatch (station_utils.py SOEHandler.Process) -/

/-- The runtime shape of the indexed-value collection handed to
`SOEHandler.Process` (the keys of the source's `visitor_class_types` dict). -/
inductive CollectionKind : Type where
  | indexedBinary
  | indexedDoubleBitBinary
  | indexedCounter
  | indexedFrozenCounter
  | indexedAnalog
  | indexedBinaryOutputStatus
  | indexedAnalogOutputStatus
  | indexedTimeAndInterval
deriving DecidableEq, Repr

/-- The visitor class `SOEHandler.Process` instantiates to decode a
collection (the values of `visitor_class_types`, plus the two integer
"hot-fix" visitors substituted for specific group variations). -/
inductive VisitorKind : Type where
  | visitorIndexedBinary
  | visitorIndexedDoubleBitBinary
  | visitorIndexedCounter
  | visitorIndexedFrozenCounter
  | visitorIndexedAnalog
  | visitorIndexedAnalogInt
  | visitorIndexedBinaryOutputStatus
  | visitorIndexedAnalogOutputStatus
  | visitorIndexedAnalogOutputStatusInt
  | visitorIndexedTimeAndInterval
deriving DecidableEq, Repr

/-- The `info.gv in [...]` membership list in the `VisitorIndexedAnalog`
branch of `SOEHandler.Process`: Group30Var1..4 and Group32Var1..4. -/
def analogIntGvList : List GroupVariation :=
  [⟨30, 1⟩, ⟨30, 2⟩, ⟨30, 3⟩, ⟨30, 4⟩, ⟨32, 1⟩, ⟨32, 2⟩, ⟨32, 3⟩, ⟨32, 4⟩]

/-- The `info.gv in [...]` membership list in the
`VisitorIndexedAnalogOutputStatus` branch of `SOEHandler.Process`:
Group40Var1..2 and Group42Var1..4. -/
def aoStatusIntGvList : List GroupVariation :=
  [⟨40, 1⟩, ⟨40, 2⟩, ⟨42, 1⟩, ⟨42, 2⟩, ⟨42, 3⟩, ⟨42, 4⟩]

/-- The visitor selection logic of `SOEHandler.Process` in station_utils.py:
look the collection's runtime type up in `visitor_class_types`, then apply
the "hot-fix" replacing the analog visitor by `VisitorIndexedAnalogInt`
(resp. `VisitorIndexedAnalogOutputStatusInt`) when `info.gv` falls in the
corresponding membership list. -/
def selectVisitor (values : CollectionKind) (gv : GroupVariation) : VisitorKind :=
  match values with
  | .indexedBinary => .visitorIndexedBinary
  | .indexedDoubleBitBinary => .visitorIndexedDoubleBitBinary
  | .indexedCounter => .visitorIndexedCounter
  | .indexedFrozenCounter => .visitorIndexedFrozenCounter
  | .indexedAnalog =>
    if gv ∈ analogIntGvList then .visitorIndexedAnalogInt else .visitorIndexedAnalog
  | .indexedBinaryOutputStatus => .visitorIndexedBinaryOutputStatus
  | .indexedAnalogOutputStatus =>
    if gv ∈ aoStatusIntGvList then .visitorIndexedAnalogOutputStatusInt
    else .visitorIndexedAnalogOutputStatus
  | .indexedTimeAndInterval => .visitorIndexedTimeAndInterval

/-- The numeric sub-kind a visitor emits for analog-family points. -/
inductive NumKind : Type where
  | int
  | double
deriving DecidableEq, Repr

/-- The numeric kind of the values an analog-family collection is decoded
into, as determined by the visitor `SOEHandler.Process` selects; `none` for
the non-analog collection shapes. -/
def emittedNumKind (values : CollectionKind) (gv : GroupVariation) : Option NumKind :=
  match selectVisitor values gv with
  | .visitorIndexedAnalog => some .double
  | .visitorIndexedAnalogInt => some .int
  | .visitorIndexedAnalogOutputStatus => some .double
  | .visitorIndexedAnalogOutputStatusInt => some .int
  | _ => none

/-! ## Measurement staging caches

Two SOEHandler classes stage measurements on the master side: the one in
`dnp3station/station_utils.py` (with a last-poll dict and a plain
`gv_ts_ind_val_dict` property) and the one in `master_utils.py` (with a
staleness threshold and an eviction sweep inside the `gv_ts_ind_val_dict`
property).  Timestamps are rationals standing for `datetime.datetime`
values measured in seconds (`(a - b).total_seconds()` becomes `a - b`). -/

/-- The per-GroupVariation index-to-value map (`Dict[int, DbPointVal]`). -/
abbrev IndValMap : Type := List (Nat × PVal)

/-- Python truthiness of `self._gv_index_value_nested_dict.get(info_gv)`:
falsy when the key is absent (`None`) or the stored dict is empty. -/
def pyFalsyMap : Option IndValMap → Bool
  | none => true
  | some m => m.isEmpty

/-- Compute the new nested-dict entry for `info_gv` as `_post_process` does
(identical lines in both SOEHandler classes): create `dict(visitor_ind_val)`
when the current entry is falsy, otherwise `update` the existing dict with
`dict(visitor_ind_val)`. -/
def postProcessMerge (current : Option IndValMap) (visitor_ind_val : List (Nat × PVal)) :
    IndValMap :=
  if pyFalsyMap current then pyDictOfList visitor_ind_val
  else dictUpdate (current.getD []) (pyDictOfList visitor_ind_val)

namespace StationUtils

/-- Mutable state of `SOEHandler` in dnp3station/station_utils.py:
`_gv_index_value_nested_dict`, `_gv_ts_ind_val_dict` and
`_gv_last_poll_dict` (all empty dicts in `__init__`). -/
structure SOEState : Type where
  gv_index_value_nested_dict : List (GroupVariation × IndValMap)
  gv_ts_ind_val_dict : List (GroupVariation × (ℚ × IndValMap))
  gv_last_poll_dict : List (GroupVariation × ℚ)
deriving DecidableEq, Repr

/-- The state `SOEHandler.__init__` builds: three empty dicts. -/
def initState : SOEState := ⟨[], [], []⟩

/-- `SOEHandler._post_process(info_gv, visitor_ind_val)` in
dnp3station/station_utils.py, with `datetime.datetime.now()` passed in as
`now`: merge the batch into `_gv_index_value_nested_dict[info_gv]`, store
`(now, merged-map)` in `_gv_ts_ind_val_dict[info_gv]`, and refresh
`_gv_last_poll_dict[info_gv]`. -/
def post_process (s : SOEState) (now : ℚ) (info_gv : GroupVariation)
    (visitor_ind_val : List (Nat × PVal)) : SOEState :=
  let merged := postProcessMerge (dget s.gv_index_value_nested_dict info_gv) visitor_ind_val
  let nested := dset s.gv_index_value_nested_dict info_gv merged
  { gv_index_value_nested_dict := nested
    gv_ts_ind_val_dict :=
      dset s.gv_ts_ind_val_dict info_gv (now, (dget nested info_gv).getD [])
    gv_last_poll_dict := dset s.gv_last_poll_dict info_gv now }

/-- The `gv_ts_ind_val_dict` property of `SOEHandler` in
dnp3station/station_utils.py (lines 185-187): it returns
`self._gv_ts_ind_val_dict` directly, with no eviction sweep. -/
def gv_ts_ind_val_dict_read (s : SOEState) : List (GroupVariation × (ℚ × IndValMap)) :=
  s.gv_ts_ind_val_dict

end StationUtils

namespace MasterUtils

/-- Mutable state of `SOEHandler` in master_utils.py:
`_gv_index_value_nested_dict`, `_gv_ts_ind_val_dict` (empty dicts in
`__init__`) and `_stale_if_longer_than_in_sec` (set to 10). -/
structure SOEState : Type where
  gv_index_value_nested_dict : List (GroupVariation × IndValMap)
  gv_ts_ind_val_dict : List (GroupVariation × (ℚ × IndValMap))
  stale_if_longer_than_in_sec : ℚ
deriving DecidableEq, Repr

/-- The state `SOEHandler.__init__` builds: two empty dicts and a staleness
threshold of 10 seconds. -/
def initState : SOEState := ⟨[], [], 10⟩

/-- `SOEHandler._post_process(info_gv, visitor_ind_val)` in master_utils.py
(same staging lines as the station_utils version, without the last-poll
dict), with `datetime.datetime.now()` passed in as `now`. -/
def post_process (s : SOEState) (now : ℚ) (info_gv : GroupVariation)
    (visitor_ind_val : List (Nat × PVal)) : SOEState :=
  let merged := postProcessMerge (dget s.gv_index_value_nested_dict info_gv) visitor_ind_val
  let nested := dset s.gv_index_value_nested_dict info_gv merged
  { gv_index_value_nested_dict := nested
    gv_ts_ind_val_dict :=
      dset s.gv_ts_ind_val_dict info_gv (now, (dget nested info_gv).getD [])
    stale_if_longer_than_in_sec := s.stale_if_longer_than_in_sec }

/-- One iteration of the `for gv in dict_keys` loop body of
`SOEHandler._update_stale_db`: look up the entry's `last_update_time`, and
when `now - last_update_time >= stale_if_longer_than`, pop `gv` from both
`_gv_ts_ind_val_dict` and `_gv_index_value_nested_dict`.  The `none` arm
is the (unreachable on dict keys) guard for a missing entry. -/
def staleStep (now : ℚ) (stale_if_longer_than : ℚ) (s : SOEState) (gv : GroupVariation) :
    SOEState :=
  match dget s.gv_ts_ind_val_dict gv with
  | some (last_update_time, _) =>
    if now - last_update_time ≥ stale_if_longer_than then
      { gv_index_value_nested_dict := dpop s.gv_index_value_nested_dict gv
        gv_ts_ind_val_dict := dpop s.gv_ts_ind_val_dict gv
        stale_if_longer_than_in_sec := s.stale_if_longer_than_in_sec }
    else s
  | none => s

/-- `SOEHandler._update_stale_db(stale_if_longer_than)` in master_utils.py,
with `datetime.datetime.now()` passed in as `now`: iterate over a snapshot
of the keys of `_gv_ts_ind_val_dict` and pop every entry whose age is at
least `stale_if_longer_than` from both staging dicts. -/
def update_stale_db (s : SOEState) (now : ℚ) (stale_if_longer_than : ℚ) : SOEState :=
  (s.gv_ts_ind_val_dict.map (fun p => p.1)).foldl (staleStep now stale_if_longer_than) s

/-- The `gv_ts_ind_val_dict` property of `SOEHandler` in master_utils.py:
it first runs `_update_stale_db(self._stale_if_longer_than_in_sec)` and
then returns `self._gv_ts_ind_val_dict`.  The result pairs the post-sweep
state with the returned dict. -/
def gv_ts_ind_val_dict_read (s : SOEState) (now : ℚ) :
    SOEState × List (GroupVariation × (ℚ × IndValMap)) :=
  let s2 := update_stale_db s now s.stale_if_longer_than_in_sec
  (s2, s2.gv_ts_ind_val_dict)

end MasterUtils

/-! ## Outstation registry and command router (outstation_new.py) -/

/-- Modelled from the spec: the protocol-engine side of
`MyOutStationNew.apply_update` (`asiodnp3.UpdateBuilder ... Apply`) and
`DBHandler.process` are external or absent from the provided sources; per
spec section 6, `Apply` pushes the constructed OutstationCommand into the
engine's point database and does not fail.  An outstation application
instance is therefore modelled by the observable it owns here: its
point database, a dict from index to the last applied status. -/
structure OutstationApp : Type where
  db : List (Nat × OutstationCmdType)
deriving DecidableEq, Repr

/-- Modelled from the spec: `MyOutStationNew.apply_update(measurement, index)`
records the data value at `index` in the outstation's database (the
engine-side `Apply` and the `DBHandler.process` mirror are total,
non-failing updates). -/
def apply_update (app : OutstationApp) (measurement : OutstationCmdType) (index : Nat) :
    OutstationApp :=
  ⟨dset app.db index measurement⟩

/-- `MyOutStationNew.process_point_value(command_type, command, index, op_type)`:
translate the master command with `master_to_outstation_command_parser`
(its `ValueError` propagates) and then reuse `apply_update`.  The
`command_type` / `op_type` tags do not affect this logic. -/
def process_point_value (app : OutstationApp) (command : MasterCmdType) (index : Nat) :
    Except CmdError OutstationApp :=
  (master_to_outstation_command_parse command).map (fun oc => apply_update app oc index)

/-- `opendnp3.CommandStatus` restricted to the values this code path can
produce or compare against; the handlers only ever return `SUCCESS`. -/
inductive CommandStatus : Type where
  | success
  | notSupported
deriving DecidableEq, Repr

/-- `opendnp3.OperateType`, threaded through `Operate` for audit purposes. -/
inductive OperateType : Type where
  | directOperate
  | selectBeforeOperate
deriving DecidableEq, Repr

/-- What escapes a `MyOutstationCommandHandler` callback: either the
re-raised translation error from `process_point_value`, or the
`AttributeError` raised when the pool lookup returned `None` and
`.process_point_value` is called on it. -/
inductive HandlerError : Type where
  | appError (e : CmdError)
  | noneTypeAttributeError
deriving DecidableEq, Repr

/-- The class-level `MyOutStationNew.outstation_application_pool` dict,
keyed by the outstation identifier string `"<ip>-<port>"`. -/
abbrev OutstationAppPool : Type := List (String × OutstationApp)

/-- `MyOutStationNew.add_outstation_app(outstation_id, outstation_app)`:
`cls.outstation_application_pool[outstation_id] = outstation_app`. -/
def add_outstation_app (pool : OutstationAppPool) (outstation_id : String)
    (outstation_app : OutstationApp) : OutstationAppPool :=
  dset pool outstation_id outstation_app

/-- `MyOutStationNew.get_outstation_app(outstation_id)`:
`cls.outstation_application_pool.get(outstation_id)`. -/
def get_outstation_app (pool : OutstationAppPool) (outstation_id : String) :
    Option OutstationApp :=
  dget pool outstation_id

/-- Modelled from the spec: the registry's `unregister(id)` operation (spec
sections 3 and 4.4: an entry is "removed at shutdown").  No removal
from `outstation_application_pool` appears in the provided sources, so the
operation is modelled as deleting the pool entry for the identifier. -/
def unregister_outstation_app (pool : OutstationAppPool) (outstation_id : String) :
    OutstationAppPool :=
  dpop pool outstation_id

namespace MyOutstationCommandHandler

/-- `MyOutstationCommandHandler.Select(command, index)`: look the bound
outstation id up in the application pool, run `process_point_value` and
return `CommandStatus.SUCCESS`; any exception is logged and re-raised
(`Except.error`).  A `None` pool-lookup result raises `AttributeError`
inside the `try` block. -/
def Select (pool : OutstationAppPool) (outstation_id : String)
    (command : MasterCmdType) (index : Nat) :
    Except HandlerError (CommandStatus × OutstationApp) :=
  match dget pool outstation_id with
  | none => .error .noneTypeAttributeError
  | some outstation_app =>
    match process_point_value outstation_app command index with
    | .ok app2 => .ok (.success, app2)
    | .error e => .error (.appError e)

/-- `MyOutstationCommandHandler.Operate(command, index, op_type)`: same path
as `Select`, with the operate-type tag threaded through (it does not change
the translation logic). -/
def Operate (pool : OutstationAppPool) (outstation_id : String)
    (command : MasterCmdType) (index : Nat) (op_type : OperateType) :
    Except HandlerError (CommandStatus × OutstationApp) :=
  match op_type, dget pool outstation_id with
  | _, none => .error .noneTypeAttributeError
  | _, some outstation_app =>
    match process_point_value outstation_app command index with
    | .ok app2 => .ok (.success, app2)
    | .error e => .error (.appError e)

end MyOutstationCommandHandler

/-! ## Helper definitions used by the theorems -/

namespace StationUtils

/-- The value staged for point index `i` under GroupVariation `gv` in the
station-side nested dict, if any. -/
def stagedVal (s : SOEState) (gv : GroupVariation) (i : Nat) : Option PVal :=
  (dget s.gv_index_value_nested_dict gv).bind (fun m => dget m i)

end StationUtils

namespace MasterUtils

/-- States of the master_utils `SOEHandler` reachable from `__init__` by the
operations that touch its staging dicts: `_post_process` (called from
`Process`) and the eviction sweep the `gv_ts_ind_val_dict` property runs. -/
inductive Reachable : SOEState → Prop where
  | init : Reachable initState
  | process (s : SOEState) (now : ℚ) (gv : GroupVariation) (l : List (Nat × PVal)) :
      Reachable s → Reachable (post_process s now gv l)
  | read (s : SOEState) (now : ℚ) :
      Reachable s → Reachable (update_stale_db s now s.stale_if_longer_than_in_sec)

/-- The two staging dicts of the master_utils `SOEHandler` agree: they hold
the same GroupVariation keys, and for each present key the index-to-value
map recorded in the timestamped entry equals the merged-value store's map. -/
def CacheAligned (s : SOEState) : Prop :=
  ∀ gv : GroupVariation,
    (∀ t m, dget s.gv_ts_ind_val_dict gv = some (t, m) →
        dget s.gv_index_value_nested_dict gv = some m)
    ∧ (dget s.gv_ts_ind_val_dict gv = none →
        dget s.gv_index_value_nested_dict gv = none)

end MasterUtils

/-! ## Theorems: the association-list dict model -/


section DictLemmas

variable {α : Type} {β : Type} [DecidableEq α]

theorem dget_dpop (d : List (α × β)) (k0 k : α) :
    dget (dpop d k0) k = if k = k0 then none else dget d k := by
  induction d with
  | nil => simp [dget, dpop]
  | cons p rest ih =>
    by_cases hp : p.1 = k0
    · simp only [dpop, hp, if_pos]
      rw [ih]
      by_cases hk : k = k0
      · simp [hk]
      · have : p.1 ≠ k := fun h => hk (h ▸ hp)
        simp [hk, dget, this]
    · simp only [dpop, hp, if_neg, not_false_iff]
      by_cases hpk : p.1 = k
      · have hk : ¬ k = k0 := fun h => hp (hpk.trans h)
        simp [dget, hpk, hk]
      · simp only [dget, hpk, if_neg, not_false_iff]
        exact ih

theorem dget_dset_self (d : List (α × β)) (k : α) (v : β) :
    dget (dset d k v) k = some v := by
  simp [dset, dget]

theorem dget_dset_ne (d : List (α × β)) (k : α) (v : β) (k' : α) (h : k' ≠ k) :
    dget (dset d k v) k' = dget d k' := by
  have hk : k ≠ k' := fun hh => h hh.symm
  simp only [dset, dget, hk, if_neg, not_false_iff]
  rw [dget_dpop]
  simp [h]

theorem dget_dictUpdate (l : List (α × β)) (d : List (α × β)) (k : α) :
    dget (dictUpdate d l) k =
      match listLast l k with
      | some v => some v
      | none => dget d k := by
  induction l generalizing d with
  | nil => simp [dictUpdate, listLast]
  | cons p rest ih =>
    show dget (dictUpdate (dset d p.1 p.2) rest) k = _
    rw [ih]
    cases hll : listLast rest k with
    | some v => simp [listLast, hll]
    | none =>
      by_cases hpk : p.1 = k
      · subst hpk
        simp [listLast, hll, dget_dset_self]
      · have hne : k ≠ p.1 := fun h => hpk h.symm
        simp [listLast, hll, hpk, dget_dset_ne d p.1 p.2 k hne]

theorem dget_pyDictOfList (l : List (α × β)) (k : α) :
    dget (pyDictOfList l) k = listLast l k := by
  rw [pyDictOfList, dget_dictUpdate]
  cases listLast l k <;> simp [dget]

theorem mem_dpop {d : List (α × β)} {k : α} {q : α × β} (h : q ∈ dpop d k) : q ∈ d := by
  induction d with
  | nil => simp [dpop] at h
  | cons p rest ih =>
    by_cases hp : p.1 = k
    · simp only [dpop, hp, if_pos] at h
      exact List.mem_cons_of_mem _ (ih h)
    · simp only [dpop, hp, if_neg, not_false_iff, List.mem_cons] at h
      rcases h with h | h
      · exact h ▸ List.mem_cons_self _ _
      · exact List.mem_cons_of_mem _ (ih h)

theorem mem_dpop_ne {d : List (α × β)} {k : α} {q : α × β} (h : q ∈ dpop d k) :
    q.1 ≠ k := by
  induction d with
  | nil => exact absurd h (by simp [dpop])
  | cons p rest ih =>
    by_cases hp : p.1 = k
    · simp only [dpop, hp, if_pos] at h
      exact ih h
    · simp only [dpop, hp, if_neg, not_false_iff, List.mem_cons] at h
      rcases h with h | h
      · subst h; exact hp
      · exact ih h

theorem keysUniq_dpop {d : List (α × β)} (k : α) (h : KeysUniq d) :
    KeysUniq (dpop d k) := by
  induction d with
  | nil => simpa [dpop] using h
  | cons p rest ih =>
    rcases List.pairwise_cons.mp h with ⟨hhead, htail⟩
    by_cases hp : p.1 = k
    · simpa [dpop, hp] using ih htail
    · simp only [dpop, hp, if_neg, not_false_iff]
      exact List.pairwise_cons.mpr ⟨fun q hq => hhead q (mem_dpop hq), ih htail⟩

theorem keysUniq_dset {d : List (α × β)} (k : α) (v : β) (h : KeysUniq d) :
    KeysUniq (dset d k v) := by
  refine List.pairwise_cons.mpr ⟨fun q hq => ?_, keysUniq_dpop k h⟩
  intro hkq
  exact mem_dpop_ne hq (show k = q.1 from hkq).symm

theorem keysUniq_dictUpdate {d : List (α × β)} (l : List (α × β)) (h : KeysUniq d) :
    KeysUniq (dictUpdate d l) := by
  induction l generalizing d with
  | nil => exact h
  | cons p rest ih => exact ih (keysUniq_dset p.1 p.2 h)

theorem keysUniq_pyDictOfList (l : List (α × β)) : KeysUniq (pyDictOfList l) :=
  keysUniq_dictUpdate l List.Pairwise.nil

theorem listLast_eq_none_of_no_key {l : List (α × β)} {k : α}
    (h : ∀ q ∈ l, q.1 ≠ k) : listLast l k = none := by
  induction l with
  | nil => rfl
  | cons p rest ih =>
    have hrest : listLast rest k = none :=
      ih (fun q hq => h q (List.mem_cons_of_mem _ hq))
    have hp : p.1 ≠ k := h p (List.mem_cons_self _ _)
    simp [listLast, hrest, hp]

theorem listLast_of_keysUniq {d : List (α × β)} (h : KeysUniq d) (k : α) :
    listLast d k = dget d k := by
  induction d with
  | nil => rfl
  | cons p rest ih =>
    rcases List.pairwise_cons.mp h with ⟨hhead, htail⟩
    by_cases hp : p.1 = k
    · have hrest : listLast rest k = none :=
        listLast_eq_none_of_no_key (fun q hq hqk => hhead q hq (hp.trans hqk.symm))
      simp [listLast, dget, hrest, hp]
    · have := ih htail
      simp only [listLast, dget, hp, if_neg, not_false_iff, this]
      cases dget rest k <;> simp

/-- Lookup after Python's `d.update(dict(l))`: the last value for the key in
the batch `l` if the batch touches it, the old value otherwise. -/
theorem dget_update_py (d : List (α × β)) (l : List (α × β)) (k : α) :
    dget (dictUpdate d (pyDictOfList l)) k =
      match listLast l k with
      | some v => some v
      | none => dget d k := by
  rw [dget_dictUpdate, listLast_of_keysUniq (keysUniq_pyDictOfList l),
    dget_pyDictOfList]

end DictLemmas

/-! ## Theorems: staging-cache support lemmas -/

theorem mem_keys_of_dget_some {α : Type} {β : Type} [DecidableEq α]
    {d : List (α × β)} {k : α} {v : β} (h : dget d k = some v) :
    k ∈ d.map (fun p => p.1) := by
  induction d with
  | nil => simp [dget] at h
  | cons p rest ih =>
    by_cases hp : p.1 = k
    · simp [hp]
    · simp only [dget, hp, if_neg, not_false_iff] at h
      simp [ih h]

/-- Lookup in the map `_post_process` stores for a GroupVariation: the last
value the new batch carries for the index if the batch touches it, the
previously staged value otherwise (also when the previous entry was absent
or empty, in which case the previous value is `none`). -/
theorem dget_postProcessMerge (current : Option IndValMap) (l : List (Nat × PVal))
    (i : Nat) :
    dget (postProcessMerge current l) i =
      match listLast l i with
      | some v => some v
      | none =>
        match current with
        | some m => dget m i
        | none => none := by
  cases current with
  | none =>
    simp only [postProcessMerge, pyFalsyMap, if_pos, dget_pyDictOfList]
    cases listLast l i <;> rfl
  | some m =>
    cases m with
    | nil =>
      simp only [postProcessMerge, pyFalsyMap, List.isEmpty_nil, if_pos, dget_pyDictOfList]
      cases listLast l i <;> rfl
    | cons q qs =>
      simp only [postProcessMerge, pyFalsyMap, List.isEmpty_cons, Bool.false_eq_true,
        if_false, Option.getD_some, dget_update_py]
      cases listLast l i <;> rfl

namespace MasterUtils

theorem staleStep_ts_other (now : ℚ) (thr : ℚ) (st : SOEState) (gv : GroupVariation)
    (k : GroupVariation) (hne : k ≠ gv) :
    dget (staleStep now thr st gv).gv_ts_ind_val_dict k = dget st.gv_ts_ind_val_dict k := by
  unfold staleStep
  cases hd : dget st.gv_ts_ind_val_dict gv with
  | none => rfl
  | some p =>
    cases p with
    | mk t m =>
      by_cases hc : now - t ≥ thr
      · simp only [hc, if_pos]
        rw [dget_dpop]
        simp [hne]
      · simp [hc]

theorem foldl_stale_ts_none (now : ℚ) (thr : ℚ) (ks : List GroupVariation)
    (st : SOEState) (k : GroupVariation) (h : dget st.gv_ts_ind_val_dict k = none) :
    dget ((ks.foldl (staleStep now thr) st)).gv_ts_ind_val_dict k = none := by
  induction ks generalizing st with
  | nil => exact h
  | cons gv ks ih =>
    apply ih
    by_cases hk : k = gv
    · subst hk
      unfold staleStep
      rw [h]
      exact h
    · rw [staleStep_ts_other now thr st gv k hk]
      exact h

theorem foldl_stale_ts_keep (now : ℚ) (thr : ℚ) (ks : List GroupVariation)
    (st : SOEState) (k : GroupVariation) (t : ℚ) (m : IndValMap)
    (h : dget st.gv_ts_ind_val_dict k = some (t, m)) (hc : ¬ now - t ≥ thr) :
    dget ((ks.foldl (staleStep now thr) st)).gv_ts_ind_val_dict k = some (t, m) := by
  induction ks generalizing st with
  | nil => exact h
  | cons gv ks ih =>
    apply ih
    by_cases hk : k = gv
    · subst hk
      unfold staleStep
      rw [h]
      simp only [hc, if_neg, not_false_iff]
      exact h
    · rw [staleStep_ts_other now thr st gv k hk]
      exact h

theorem foldl_stale_ts_evict (now : ℚ) (thr : ℚ) (ks : List GroupVariation)
    (st : SOEState) (k : GroupVariation) (t : ℚ) (m : IndValMap)
    (hk : k ∈ ks) (h : dget st.gv_ts_ind_val_dict k = some (t, m))
    (hc : now - t ≥ thr) :
    dget ((ks.foldl (staleStep now thr) st)).gv_ts_ind_val_dict k = none := by
  induction ks generalizing st with
  | nil => exact absurd hk (List.not_mem_nil k)
  | cons gv ks ih =>
    by_cases hkg : k = gv
    · subst hkg
      have hstep : dget (staleStep now thr st k).gv_ts_ind_val_dict k = none := by
        unfold staleStep
        rw [h]
        simp only [hc, if_pos]
        rw [dget_dpop]
        simp
      exact foldl_stale_ts_none now thr ks _ k hstep
    · have hk2 : k ∈ ks := by
        rcases List.mem_cons.mp hk with hh | hh
        · exact absurd hh hkg
        · exact hh
      exact ih (staleStep now thr st gv) hk2
        (by rw [staleStep_ts_other now thr st gv k hkg]; exact h)

theorem post_process_ts_self (s : SOEState) (now : ℚ) (gv : GroupVariation)
    (l : List (Nat × PVal)) :
    dget (post_process s now gv l).gv_ts_ind_val_dict gv
      = some (now, (dget (post_process s now gv l).gv_index_value_nested_dict gv).getD []) := by
  simp [post_process, dget_dset_self]

theorem post_process_stale_eq (s : SOEState) (now : ℚ) (gv : GroupVariation)
    (l : List (Nat × PVal)) :
    (post_process s now gv l).stale_if_longer_than_in_sec = s.stale_if_longer_than_in_sec := rfl

theorem cacheAligned_staleStep (now : ℚ) (thr : ℚ) (st : SOEState) (gv0 : GroupVariation)
    (h : CacheAligned st) : CacheAligned (staleStep now thr st gv0) := by
  unfold staleStep
  cases hd : dget st.gv_ts_ind_val_dict gv0 with
  | none => exact h
  | some p =>
    cases p with
    | mk t0 m0 =>
      by_cases hc : now - t0 ≥ thr
      · simp only [hc, if_pos]
        intro gv
        constructor
        · intro t m hts
          rw [dget_dpop] at hts ⊢
          by_cases hg : gv = gv0
          · simp [hg] at hts
          · simp only [hg, if_neg, not_false_iff] at hts ⊢
            exact (h gv).1 t m hts
        · intro hnone
          rw [dget_dpop] at hnone ⊢
          by_cases hg : gv = gv0
          · simp [hg]
          · simp only [hg, if_neg, not_false_iff] at hnone ⊢
            exact (h gv).2 hnone
      · simp only [hc, if_neg, not_false_iff]
        exact h

theorem cacheAligned_foldl (now : ℚ) (thr : ℚ) (ks : List GroupVariation)
    (st : SOEState) (h : CacheAligned st) :
    CacheAligned (ks.foldl (staleStep now thr) st) := by
  induction ks generalizing st with
  | nil => exact h
  | cons gv ks ih => exact ih _ (cacheAligned_staleStep now thr st gv h)

theorem cacheAligned_update_stale_db (s : SOEState) (now : ℚ) (thr : ℚ)
    (h : CacheAligned s) : CacheAligned (update_stale_db s now thr) :=
  cacheAligned_foldl now thr _ s h

theorem cacheAligned_post_process (s : SOEState) (now : ℚ) (gv : GroupVariation)
    (l : List (Nat × PVal)) (h : CacheAligned s) :
    CacheAligned (post_process s now gv l) := by
  intro k
  constructor
  · intro t m hts
    by_cases hk : k = gv
    · subst hk
      rw [post_process_ts_self] at hts
      injection hts with hpair
      rw [(Prod.mk.injEq _ _ _ _).mp hpair |>.2.symm]
      simp [post_process, dget_dset_self]
    · simp only [post_process, dget_dset_ne _ _ _ _ hk] at hts ⊢
      exact (h k).1 t m hts
  · intro hnone
    by_cases hk : k = gv
    · subst hk
      rw [post_process_ts_self] at hnone
      exact absurd hnone (by simp)
    · simp only [post_process, dget_dset_ne _ _ _ _ hk] at hnone ⊢
      exact (h k).2 hnone

end MasterUtils

/-! ## Claim theorems -/

/-- C1: for every ControlRelayOutputBlock master command,
`master_to_outstation_command_parser` returns a BinaryOutputStatus holding
boolean true when the raw control code is 3 and boolean false when it is 4,
and fails with an InvalidControlCode error for every other raw control
code, never silently defaulting to a value. -/
theorem crob_translation_exact (c : Nat) :
    (c = 3 → master_to_outstation_command_parse (.controlRelayOutputBlock c)
        = .ok (.binaryOutputStatus true))
    ∧ (c = 4 → master_to_outstation_command_parse (.controlRelayOutputBlock c)
        = .ok (.binaryOutputStatus false))
    ∧ (c ≠ 3 → c ≠ 4 → master_to_outstation_command_parse (.controlRelayOutputBlock c)
        = .error (.invalidControlCode c)) := by
  refine ⟨fun h => ?_, fun h => ?_, fun h3 h4 => ?_⟩
  · subst h; rfl
  · subst h; rfl
  · simp [master_to_outstation_command_parse, h3, h4]

/-- Witness for C1 at raw codes 3, 4 and 5. -/
theorem crob_translation_exact_witness :
    master_to_outstation_command_parse (.controlRelayOutputBlock 3)
        = .ok (.binaryOutputStatus true)
    ∧ master_to_outstation_command_parse (.controlRelayOutputBlock 4)
        = .ok (.binaryOutputStatus false)
    ∧ master_to_outstation_command_parse (.controlRelayOutputBlock 5)
        = .error (.invalidControlCode 5) :=
  ⟨(crob_translation_exact 3).1 rfl, (crob_translation_exact 4).2.1 rfl,
    (crob_translation_exact 5).2.2 (by decide) (by decide)⟩

/-- C4: for group 40, `parsing_gv_to_mastercmdtype` maps variations 1, 2, 3,
4 respectively to AnalogOutputInt32, AnalogOutputInt16, AnalogOutputFloat32,
AnalogOutputDouble64 carrying the supplied value verbatim, and fails with an
InvalidValueType error whenever the supplied value is not numeric (e.g., a
string); in particular `to_master_command(40, 4, 3.14)` returns a
64-bit-float analog output carrying 3.14. -/
theorem group40_to_master_command (v : PVal) (variation : Nat) :
    (pyTypeIsFloatOrInt v = true →
        parsing_gv_to_mastercmdtype 40 1 v = .ok (.analogOutputInt32 v)
        ∧ parsing_gv_to_mastercmdtype 40 2 v = .ok (.analogOutputInt16 v)
        ∧ parsing_gv_to_mastercmdtype 40 3 v = .ok (.analogOutputFloat32 v)
        ∧ parsing_gv_to_mastercmdtype 40 4 v = .ok (.analogOutputDouble64 v))
    ∧ (pyTypeIsFloatOrInt v = false →
        parsing_gv_to_mastercmdtype 40 variation v
          = .error (.invalidValueType 40 variation))
    ∧ parsing_gv_to_mastercmdtype 40 4 (.vFloat 3.14)
        = .ok (.analogOutputDouble64 (.vFloat 3.14))
    ∧ parsing_gv_to_mastercmdtype 40 4 (.vStr "x")
        = .error (.invalidValueType 40 4) := by
  refine ⟨fun h => ?_, fun h => ?_, rfl, rfl⟩
  · refine ⟨?_, ?_, ?_, ?_⟩ <;> simp [parsing_gv_to_mastercmdtype, h]
  · simp [parsing_gv_to_mastercmdtype, h]

/-- Witness for C4 at a numeric and a non-numeric concrete value. -/
theorem group40_to_master_command_witness :
    parsing_gv_to_mastercmdtype 40 1 (.vInt 7) = .ok (.analogOutputInt32 (.vInt 7))
    ∧ parsing_gv_to_mastercmdtype 40 2 (.vStr "x") = .error (.invalidValueType 40 2) :=
  ⟨((group40_to_master_command (.vInt 7) 2).1 rfl).1,
    (group40_to_master_command (.vStr "x") 2).2.1 rfl⟩

/-- C9: for group 40 (any variation), calling `parsing_gv_to_mastercmdtype`
with a boolean value fails with the invalid-value error rather than being
accepted as numeric: the `type(val_to_set) in [float, int]` check excludes
`bool` even though Python booleans are a subtype of int. -/
theorem group40_rejects_bool (b : Bool) (variation : Nat) :
    parsing_gv_to_mastercmdtype 40 variation (.vBool b)
      = .error (.invalidValueType 40 variation) := by
  simp [parsing_gv_to_mastercmdtype, pyTypeIsFloatOrInt]

/-- C8: round-trip in the boolean/relay case: constructing a master command
with `to_master_command(10, 2, b)` and translating it with
`to_outstation_status` yields a binary output status holding exactly `b`. -/
theorem bool_relay_roundtrip (b : Bool) :
    (parsing_gv_to_mastercmdtype 10 2 (.vBool b)).bind
        master_to_outstation_command_parse
      = .ok (.binaryOutputStatus b) := by
  cases b <;> rfl

/-- C5: for every analog or analog-output-status collection processed by
`SOEHandler.Process`, the emitted numeric kind is chosen from the
GroupVariation: for analog collections, variations 30.1-30.4 and 32.1-32.4
(`analogIntGvList`) are decoded with the integer visitor; for
analog-output-status collections, variations 40.1, 40.2 and 42.1-42.4
(`aoStatusIntGvList`) are decoded with the integer visitor; every other
analog variation is decoded with the double visitor. -/
theorem analog_numeric_kind_from_gv (gv : GroupVariation) :
    emittedNumKind .indexedAnalog gv
        = some (if gv ∈ analogIntGvList then .int else .double)
    ∧ emittedNumKind .indexedAnalogOutputStatus gv
        = some (if gv ∈ aoStatusIntGvList then .int else .double) := by
  constructor
  · by_cases h : gv ∈ analogIntGvList <;> simp [emittedNumKind, selectVisitor, h]
  · by_cases h : gv ∈ aoStatusIntGvList <;> simp [emittedNumKind, selectVisitor, h]

/-- C7: for the outstation registry, looking an identifier up in the initial
(empty) pool yields no instance; after
`add_outstation_app("127.0.0.1-20000", instance)`, `get_outstation_app` of
that identifier returns exactly that instance; and after unregistering the
identifier, the lookup misses again. -/
theorem registry_register_lookup_unregister (outstation_id : String)
    (app : OutstationApp) (pool : OutstationAppPool) :
    get_outstation_app ([] : OutstationAppPool) outstation_id = none
    ∧ get_outstation_app (add_outstation_app pool outstation_id app) outstation_id
        = some app
    ∧ get_outstation_app
        (unregister_outstation_app (add_outstation_app pool outstation_id app)
          outstation_id)
        outstation_id = none := by
  refine ⟨rfl, dget_dset_self _ _ _, ?_⟩
  unfold get_outstation_app unregister_outstation_app
  rw [dget_dpop]
  simp

/-- C6: for every inbound Select or Operate request whose bound outstation
identifier resolves in the application pool, the command handler returns
CommandStatus SUCCESS if and only if `process_point_value` (translation plus
database update) completes without error; any translation error is re-raised
to the caller, and an ok result always carries SUCCESS. -/
theorem handler_success_iff_translation (pool : OutstationAppPool)
    (outstation_id : String) (command : MasterCmdType) (index : Nat)
    (op_type : OperateType) (app : OutstationApp)
    (h : dget pool outstation_id = some app) :
    ((∃ app2, MyOutstationCommandHandler.Select pool outstation_id command index
          = .ok (CommandStatus.success, app2))
        ↔ ∃ app2, process_point_value app command index = .ok app2)
    ∧ ((∃ app2, MyOutstationCommandHandler.Operate pool outstation_id command index
            op_type
          = .ok (CommandStatus.success, app2))
        ↔ ∃ app2, process_point_value app command index = .ok app2)
    ∧ (∀ e, process_point_value app command index = .error e →
        MyOutstationCommandHandler.Select pool outstation_id command index
            = .error (.appError e)
        ∧ MyOutstationCommandHandler.Operate pool outstation_id command index op_type
            = .error (.appError e))
    ∧ (∀ st app2,
        MyOutstationCommandHandler.Select pool outstation_id command index
            = .ok (st, app2) →
        st = CommandStatus.success) := by
  have hsel : MyOutstationCommandHandler.Select pool outstation_id command index
      = match process_point_value app command index with
        | .ok app2 => .ok (.success, app2)
        | .error e => .error (.appError e) := by
    unfold MyOutstationCommandHandler.Select
    rw [h]
  have hop : MyOutstationCommandHandler.Operate pool outstation_id command index op_type
      = match process_point_value app command index with
        | .ok app2 => .ok (.success, app2)
        | .error e => .error (.appError e) := by
    unfold MyOutstationCommandHandler.Operate
    rw [h]
  rw [hsel, hop]
  cases hp : process_point_value app command index with
  | ok app2 => refine ⟨?_, ?_, ?_, ?_⟩ <;> simp
  | error e => refine ⟨?_, ?_, ?_, ?_⟩ <;> simp

/-- Witness for C6 at a registered outstation and a latch-on relay command. -/
theorem handler_success_iff_translation_witness :
    ∃ app2,
      MyOutstationCommandHandler.Select [("127.0.0.1-20000", (⟨[]⟩ : OutstationApp))]
          "127.0.0.1-20000" (.controlRelayOutputBlock 3) 0
        = .ok (CommandStatus.success, app2) :=
  ((handler_success_iff_translation [("127.0.0.1-20000", ⟨[]⟩)] "127.0.0.1-20000"
      (.controlRelayOutputBlock 3) 0 .directOperate ⟨[]⟩ rfl).1).mpr
    ⟨⟨[(0, .binaryOutputStatus true)]⟩, rfl⟩

namespace StationUtils

theorem stagedVal_eq (s : SOEState) (gv : GroupVariation) (i : Nat) :
    stagedVal s gv i =
      match dget s.gv_index_value_nested_dict gv with
      | some m => dget m i
      | none => none := by
  unfold stagedVal
  cases dget s.gv_index_value_nested_dict gv <;> rfl

end StationUtils

/-- C3: `_post_process` merges rather than replaces: it creates the staged
map on first observation of a GroupVariation, and on each later observation
overwrites only the indices present in the new batch (last write per index
wins) while preserving previously staged values at untouched indices, and
refreshes the last-update timestamp of the GroupVariation's timestamped
entry to the current time. -/
theorem post_process_merges (s : StationUtils.SOEState) (now : ℚ)
    (gv : GroupVariation) (l : List (Nat × PVal)) :
    (dget s.gv_index_value_nested_dict gv = none →
        dget (StationUtils.post_process s now gv l).gv_index_value_nested_dict gv
          = some (pyDictOfList l))
    ∧ (∀ i v, listLast l i = some v →
        StationUtils.stagedVal (StationUtils.post_process s now gv l) gv i = some v)
    ∧ (∀ i, listLast l i = none →
        StationUtils.stagedVal (StationUtils.post_process s now gv l) gv i
          = StationUtils.stagedVal s gv i)
    ∧ dget (StationUtils.post_process s now gv l).gv_ts_ind_val_dict gv
        = some (now,
            (dget (StationUtils.post_process s now gv l).gv_index_value_nested_dict
              gv).getD []) := by
  have hnst : dget (StationUtils.post_process s now gv l).gv_index_value_nested_dict gv
      = some (postProcessMerge (dget s.gv_index_value_nested_dict gv) l) := by
    simp [StationUtils.post_process, dget_dset_self]
  refine ⟨fun h => ?_, fun i v hv => ?_, fun i hv => ?_, ?_⟩
  · rw [hnst, h]
    simp [postProcessMerge, pyFalsyMap]
  · simp only [StationUtils.stagedVal_eq, hnst]
    rw [dget_postProcessMerge, hv]
  · simp only [StationUtils.stagedVal_eq, hnst]
    rw [dget_postProcessMerge, hv]
  · simp [StationUtils.post_process, dget_dset_self]

/-- Witness for C3: observe index 1 then index 2 for GroupVariation (30, 1);
the second observation preserves index 1 and stages index 2. -/
theorem post_process_merges_witness :
    StationUtils.stagedVal
        (StationUtils.post_process
          (StationUtils.post_process StationUtils.initState 0 ⟨30, 1⟩
            [(1, PVal.vFloat 10)])
          1 ⟨30, 1⟩ [(2, PVal.vFloat 20)])
        ⟨30, 1⟩ 1 = some (PVal.vFloat 10)
    ∧ StationUtils.stagedVal
        (StationUtils.post_process
          (StationUtils.post_process StationUtils.initState 0 ⟨30, 1⟩
            [(1, PVal.vFloat 10)])
          1 ⟨30, 1⟩ [(2, PVal.vFloat 20)])
        ⟨30, 1⟩ 2 = some (PVal.vFloat 20) := by
  constructor
  · rw [(post_process_merges
        (StationUtils.post_process StationUtils.initState 0 ⟨30, 1⟩
          [(1, PVal.vFloat 10)])
        1 ⟨30, 1⟩ [(2, PVal.vFloat 20)]).2.2.1 1 rfl]
    rfl
  · exact (post_process_merges
        (StationUtils.post_process StationUtils.initState 0 ⟨30, 1⟩
          [(1, PVal.vFloat 10)])
        1 ⟨30, 1⟩ [(2, PVal.vFloat 20)]).2.1 2 (PVal.vFloat 20) rfl

/-- Counterexample for C2 as stated: the `gv_ts_ind_val_dict` property of
the `SOEHandler` in dnp3station/station_utils.py (one of the claim's cited
code places) performs no eviction sweep, so after an observe of
GroupVariation (30, 1) at time 0 a read still returns the staged entry no
matter how much later it happens (the read does not even consult a clock),
contradicting "a read at T+11s returns no entry for that GroupVariation". -/
theorem station_read_never_evicts :
    StationUtils.gv_ts_ind_val_dict_read
        (StationUtils.post_process StationUtils.initState 0 ⟨30, 1⟩
          [(1, PVal.vFloat 10)])
      = [(⟨30, 1⟩, (0, [(1, PVal.vFloat 10)]))] := rfl

/-- C2 (amended to the master_utils `SOEHandler`, whose `gv_ts_ind_val_dict`
property does run the eviction sweep): for every GroupVariation staged by an
observe at time T with staleness threshold 10 seconds, a read of the staging
cache first runs `_update_stale_db`: a read at T+11s returns no entry for
that GroupVariation, while a read at T+5s (with no intervening observe)
still returns the staged entry with its merged index-to-value map. -/
theorem staging_read_evicts_stale (s : MasterUtils.SOEState) (T : ℚ)
    (gv : GroupVariation) (l : List (Nat × PVal))
    (h : s.stale_if_longer_than_in_sec = 10) :
    dget (MasterUtils.gv_ts_ind_val_dict_read (MasterUtils.post_process s T gv l)
        (T + 11)).2 gv = none
    ∧ dget (MasterUtils.gv_ts_ind_val_dict_read (MasterUtils.post_process s T gv l)
        (T + 5)).2 gv
      = some (T,
          (dget (MasterUtils.post_process s T gv l).gv_index_value_nested_dict
            gv).getD []) := by
  have hts := MasterUtils.post_process_ts_self s T gv l
  have hstale : (MasterUtils.post_process s T gv l).stale_if_longer_than_in_sec = 10 := by
    rw [MasterUtils.post_process_stale_eq, h]
  constructor
  · show dget (MasterUtils.update_stale_db (MasterUtils.post_process s T gv l) (T + 11)
        (MasterUtils.post_process s T gv l).stale_if_longer_than_in_sec).gv_ts_ind_val_dict
        gv = none
    rw [hstale, MasterUtils.update_stale_db]
    exact MasterUtils.foldl_stale_ts_evict (T + 11) 10 _ _ gv T _
      (mem_keys_of_dget_some hts) hts (by linarith)
  · show dget (MasterUtils.update_stale_db (MasterUtils.post_process s T gv l) (T + 5)
        (MasterUtils.post_process s T gv l).stale_if_longer_than_in_sec).gv_ts_ind_val_dict
        gv = some _
    rw [hstale, MasterUtils.update_stale_db]
    exact MasterUtils.foldl_stale_ts_keep (T + 5) 10 _ _ gv T _ hts (by linarith)

/-- Witness for C2 (amended): observe GroupVariation (30, 1) at time 0 on a
fresh master_utils handler (threshold 10); the read at time 11 misses and
the read at time 5 returns the staged entry. -/
theorem staging_read_evicts_stale_witness :
    dget (MasterUtils.gv_ts_ind_val_dict_read
        (MasterUtils.post_process MasterUtils.initState 0 ⟨30, 1⟩
          [(1, PVal.vFloat 10)]) (0 + 11)).2 ⟨30, 1⟩ = none
    ∧ dget (MasterUtils.gv_ts_ind_val_dict_read
        (MasterUtils.post_process MasterUtils.initState 0 ⟨30, 1⟩
          [(1, PVal.vFloat 10)]) (0 + 5)).2 ⟨30, 1⟩
      = some (0, [(1, PVal.vFloat 10)]) := by
  have h := staging_read_evicts_stale MasterUtils.initState 0 ⟨30, 1⟩
    [(1, PVal.vFloat 10)] rfl
  exact ⟨h.1, by rw [h.2]; rfl⟩

/-- C10: invariant of the master-side staging cache: in every reachable
state of the master_utils `SOEHandler` (so after every `_post_process` and
after every eviction sweep), `_gv_ts_ind_val_dict` and
`_gv_index_value_nested_dict` hold exactly the same GroupVariation keys,
and for each present GroupVariation the index-to-value map recorded in the
timestamped entry equals the map in the merged-value store. -/
theorem staging_dicts_aligned (s : MasterUtils.SOEState)
    (h : MasterUtils.Reachable s) : MasterUtils.CacheAligned s := by
  induction h with
  | init =>
    intro gv
    exact ⟨fun t m ht => by exact absurd ht (by simp [MasterUtils.initState, dget]),
      fun _ => rfl⟩
  | process s now gv l _ ih => exact MasterUtils.cacheAligned_post_process s now gv l ih
  | read s now _ ih => exact MasterUtils.cacheAligned_update_stale_db s now _ ih

/-- Witness for C10: the invariant after one observe followed by one
eviction sweep, starting from a fresh handler. -/
theorem staging_dicts_aligned_witness :
    MasterUtils.CacheAligned
      (MasterUtils.update_stale_db
        (MasterUtils.post_process MasterUtils.initState 0 ⟨30, 1⟩
          [(1, PVal.vFloat 10)])
        11
        (MasterUtils.post_process MasterUtils.initState 0 ⟨30, 1⟩
          [(1, PVal.vFloat 10)]).stale_if_longer_than_in_sec) :=
  staging_dicts_aligned _
    (MasterUtils.Reachable.read _ 11
      (MasterUtils.Reachable.process _ 0 _ _ MasterUtils.Reachable.init))

end Dnp3
